import Mathlib

/-!
Shallow embedding of `src/shared-validator.cc` (wabt's `SharedValidator`,
the module-level validator for WebAssembly), together with theorems about
its module-level events: limits, tables, memories, globals, constant
expressions, locals, the start function, alignment checks and end-of-module
checks.

Machine integers (`Index` = `uint32_t`, `uint64_t` limit fields,
`Address` = `uint32_t`) are modelled as `Nat`; the source performs no
wrapping arithmetic on them except the guard in `OnLocalDecl`, which is
modelled with explicit `2^32` bounds.  Source locations are abstracted to
`Nat`; diagnostics are `(location, message)` pairs appended in source order.
Out-of-bounds `std::vector` accesses (undefined behavior in the C++ source)
are modelled by returning `none`.
-/

namespace Wabt

/-- Validation outcome, mirroring `wabt::Result` (`Ok` or `Error`). -/
inductive Result where
  | ok
  | error
deriving DecidableEq, Repr

/-- `Result::operator|=`: the combination is `error` if either side is. -/
def Result.or : Result → Result → Result
  | Result.ok, r => r
  | Result.error, _ => Result.error

/-- A diagnostic as recorded by `SharedValidator::PrintError`: the source
location (abstracted to a `Nat`) and the message text. -/
abbrev Diag := Nat × String

/-- The outcome of one event: a `Result` plus the diagnostics it emitted. -/
abbrev ROut := Result × List Diag

/-- One `result |= step` iteration: OR the results, append diagnostics. -/
def rseq (a b : ROut) : ROut := (Result.or a.1 b.1, a.2 ++ b.2)

/-- The neutral outcome `Result::Ok` with no diagnostics. -/
def rok : ROut := (Result.ok, [])

/-- `PrintError(loc, msg)`: appends the diagnostic and returns `Error`. -/
def printError (loc : Nat) (msg : String) : ROut :=
  (Result.error, [(loc, msg)])

/-- Modelled from the spec: the value-type enumeration `wabt::Type`
(declared in `src/type.h`, not part of `src/`); §3 of the spec lists
I32, I64, F32, F64, V128, Funcref, Externref, Nullref, Anyref, Exnref,
Void and the placeholder Any. -/
inductive Ty where
  | i32
  | i64
  | f32
  | f64
  | v128
  | funcref
  | externref
  | nullref
  | anyref
  | exnref
  | void
  | any
deriving DecidableEq, Repr

/-- Modelled from the spec: the reference-type predicate `IsRefType`
(declared outside `src/`); per §3/§4.1 the reference types are Funcref,
Externref, Nullref, Anyref and Exnref. -/
def IsRefType : Ty → Bool
  | Ty.funcref => true
  | Ty.externref => true
  | Ty.nullref => true
  | Ty.anyref => true
  | Ty.exnref => true
  | _ => false

/-- Modelled from the spec: `TypeChecker::CheckType` (defined in
`src/type-checker.cc`, not part of `src/`); per §4.1 it succeeds iff
`expected` is Any, or `actual == expected`, or both are reference types
and `actual` is a subtype of `expected` in the lattice
Nullref <: Funcref, Externref, Exnref, Anyref and
Funcref, Externref, Exnref <: Anyref. -/
def CheckTypeB (actual expected : Ty) : Bool :=
  decide (expected = Ty.any) || decide (actual = expected) ||
    (match actual, expected with
     | Ty.nullref, Ty.funcref => true
     | Ty.nullref, Ty.externref => true
     | Ty.nullref, Ty.exnref => true
     | Ty.nullref, Ty.anyref => true
     | Ty.funcref, Ty.anyref => true
     | Ty.externref, Ty.anyref => true
     | Ty.exnref, Ty.anyref => true
     | _, _ => false)

/-- `wabt::Limits`: `{ initial, max, has_max, is_shared }` (u64 fields). -/
structure Limits where
  initial : Nat
  max : Nat
  has_max : Bool
  is_shared : Bool
deriving DecidableEq, Repr

/-- `SharedValidator::TableType`: element type plus limits. -/
structure TableType where
  element : Ty
  limits : Limits
deriving DecidableEq, Repr

/-- `SharedValidator::MemoryType`: just limits. -/
structure MemoryType where
  limits : Limits
deriving DecidableEq, Repr

/-- `SharedValidator::GlobalType`: value type and mutability. -/
structure GlobalType where
  type : Ty
  mutable_ : Bool
deriving DecidableEq, Repr

/-- `SharedValidator::FuncType`: parameter and result type vectors. -/
structure FuncType where
  params : List Ty
  results : List Ty
deriving DecidableEq, Repr

/-- `SharedValidator::LocalDecl`: run-length entry; `end_` is the exclusive
upper bound of the local indices covered by this entry (`end` in C++). -/
structure LocalDecl where
  type : Ty
  end_ : Nat
deriving DecidableEq, Repr

/-- `wabt::Var`: an index plus the source location it was written at. -/
structure Var where
  index : Nat
  loc : Nat
deriving DecidableEq, Repr

/-- `SharedValidator::CheckIndex(var, max_index, desc)`
(shared-validator.cc:401-408): out-of-range iff `index >= max_index`. -/
def CheckIndex (var : Var) (max_index : Nat) (desc : String) : ROut :=
  if var.index ≥ max_index then
    printError var.loc (desc ++ " variable out of range")
  else rok

/-- `SharedValidator::CheckLimits` (shared-validator.cc:69-93): checks
`initial <= absolute_max`, and when `has_max` also `max <= absolute_max`
and `max >= initial`, accumulating one diagnostic per failed check. -/
def CheckLimits (loc : Nat) (limits : Limits) (absolute_max : Nat)
    (desc : String) : ROut :=
  rseq
    (if limits.initial > absolute_max then
      printError loc ("initial " ++ desc ++ " must be <= absolute max")
    else rok)
    (if limits.has_max then
      rseq
        (if limits.max > absolute_max then
          printError loc ("max " ++ desc ++ " must be <= absolute max")
        else rok)
        (if limits.max < limits.initial then
          printError loc ("max " ++ desc ++ " must be >= initial " ++ desc)
        else rok)
    else rok)

/-- `SharedValidator::OnTable` (shared-validator.cc:95-117): single-table
rule unless reference_types, limits vs `UINT32_MAX`, no shared tables,
funcref-only without reference_types, element must be a reference type;
the table is appended regardless. -/
def OnTable (loc : Nat) (reference_types_enabled : Bool)
    (tables : List TableType) (elem_type : Ty) (limits : Limits) :
    ROut × List TableType :=
  let r1 := if tables.length > 0 && !reference_types_enabled then
      printError loc "only one table allowed" else rok
  let r2 := CheckLimits loc limits 4294967295 "elems"
  let r3 := if limits.is_shared then
      printError loc "tables may not be shared" else rok
  let r4 := if elem_type ≠ Ty.funcref && !reference_types_enabled then
      printError loc "tables must have funcref type" else rok
  let r5 := if !IsRefType elem_type then
      printError loc "tables must have reference types" else rok
  (rseq (rseq (rseq (rseq r1 r2) r3) r4) r5,
   tables ++ [TableType.mk elem_type limits])

/-- `SharedValidator::OnMemory` (shared-validator.cc:119-136): single-memory
rule, limits vs `WABT_MAX_PAGES` (65536), and the shared-memory checks
(`threads` feature, mandatory max) as an if/else-if chain; the memory is
appended regardless. -/
def OnMemory (loc : Nat) (threads_enabled : Bool)
    (memories : List MemoryType) (limits : Limits) :
    ROut × List MemoryType :=
  let r1 := if memories.length > 0 then
      printError loc "only one memory block allowed" else rok
  let r2 := CheckLimits loc limits 65536 "pages"
  let r3 := if limits.is_shared then
      (if !threads_enabled then
        printError loc "memories may not be shared"
      else if !limits.has_max then
        printError loc "shared memories must have max sizes"
      else rok)
    else rok
  (rseq (rseq r1 r2) r3, memories ++ [MemoryType.mk limits])

/-- `SharedValidator::OnStart` (shared-validator.cc:270-283).  The function
type is read from `funcs_[func_var.index()]` with no index check first;
with `func_var.index() >= funcs_.size()` this is an out-of-bounds
`std::vector` access (undefined behavior in the C++ source), modelled here
as `none`.  `starts` is the running `starts_` counter before the event. -/
def OnStart (loc : Nat) (funcs : List FuncType) (starts : Nat)
    (func_var : Var) : Option ROut :=
  let r1 := if starts > 0 then
      printError loc "only one start function allowed" else rok
  match funcs[func_var.index]? with
  | none => none
  | some func_type =>
    let r2 := if func_type.params.length ≠ 0 then
        printError loc "start function must be nullary" else rok
    let r3 := if func_type.results.length ≠ 0 then
        printError loc "start function must not return anything" else rok
    some (rseq (rseq r1 r2) r3)

/-- `SharedValidator::CheckDeclaredFunc` (shared-validator.cc:383-389):
error iff the function index is not in `declared_funcs_`. -/
def CheckDeclaredFunc (declared_funcs : List Nat) (func_var : Var) : ROut :=
  if declared_funcs.contains func_var.index = false then
    printError func_var.loc "function is not declared in any elem sections"
  else rok

/-- `SharedValidator::EndModule` (shared-validator.cc:391-399): iterates
`init_expr_funcs_`, early-returning (`CHECK_RESULT`) at the first function
variable not contained in `declared_funcs_`. -/
def EndModule (declared_funcs : List Nat) : List Var → ROut
  | [] => (Result.ok, [])
  | v :: rest =>
    match CheckDeclaredFunc declared_funcs v with
    | (Result.ok, _) => EndModule declared_funcs rest
    | (Result.error, msgs) => (Result.error, msgs)

/-- `SharedValidator::OnElemSegmentElemExpr_RefFunc`
(shared-validator.cc:328-334): checks the function index
(`CHECK_RESULT`, early return), then records it in `declared_funcs_`. -/
def OnElemSegmentElemExpr_RefFunc (funcs_len : Nat)
    (declared_funcs : List Nat) (func_var : Var) : ROut × List Nat :=
  match CheckIndex func_var funcs_len "function" with
  | (Result.error, msgs) => ((Result.error, msgs), declared_funcs)
  | (Result.ok, _) => ((Result.ok, []), declared_funcs ++ [func_var.index])

/-- `SharedValidator::CheckGlobalIndex` (shared-validator.cc:472-480): the
index check, plus the output global type: the table entry on success, the
placeholder `GlobalType{Type::Any, true}` on failure. -/
def CheckGlobalIndex (globals : List GlobalType) (global_var : Var) :
    ROut × GlobalType :=
  let r := CheckIndex global_var globals.length "global"
  (r,
   match r.1 with
   | Result.ok => globals.getD global_var.index (GlobalType.mk Ty.any true)
   | Result.error => GlobalType.mk Ty.any true)

/-- `SharedValidator::CheckType` (shared-validator.cc:157-167): wraps
`TypeChecker::CheckType`, printing a type-mismatch diagnostic on failure. -/
def CheckType (loc : Nat) (actual expected : Ty) (desc : String) : ROut :=
  if !CheckTypeB actual expected then
    printError loc ("type mismatch at " ++ desc)
  else rok

/-- `SharedValidator::OnGlobalSet` (shared-validator.cc:839-851): global
index check (with placeholder output), immutability check, then the
TypeChecker transition on the (possibly placeholder) global's type.
`tcGlobalSet` abstracts `TypeChecker::OnGlobalSet`. -/
def OnGlobalSet (loc : Nat) (globals : List GlobalType) (global_var : Var)
    (tcGlobalSet : Ty → Result) : ROut × Ty :=
  let c := CheckGlobalIndex globals global_var
  let r2 := if !c.2.mutable_ then
      printError loc "cannot global.set on immutable global" else rok
  (rseq (rseq c.1 r2) (tcGlobalSet c.2.type, []), c.2.type)

/-- `SharedValidator::OnGlobalInitExpr_GlobalGet`
(shared-validator.cc:175-195): global index check (`CHECK_RESULT`, early
return with only the index diagnostic), then the imported-global check,
the immutability check, and the type check against `globals_.back()` (the
global being initialized; reached only after the index check succeeded,
hence never empty — the `none` branch is unreachable). -/
def OnGlobalInitExpr_GlobalGet (loc : Nat) (num_imported_globals : Nat)
    (globals : List GlobalType) (ref_global_var : Var) : Option ROut :=
  let c := CheckGlobalIndex globals ref_global_var
  match c.1.1 with
  | Result.error => some (Result.error, c.1.2)
  | Result.ok =>
    match globals.getLast? with
    | none => none
    | some cur =>
      let r1 := if ref_global_var.index ≥ num_imported_globals then
          printError ref_global_var.loc
            "initializer expression can only reference an imported global"
        else rok
      let r2 := if c.2.mutable_ then
          printError loc
            "initializer expression cannot reference a mutable global"
        else rok
      let r3 := CheckType loc c.2.type cur.type
          "global initializer expression"
      some (rseq (rseq r1 r2) r3)

/-- `SharedValidator::OnGlobalInitExpr_RefFunc`
(shared-validator.cc:202-208): function index check (`CHECK_RESULT`,
early return), record the variable in `init_expr_funcs_`, then the type
check against `globals_.back()`. -/
def OnGlobalInitExpr_RefFunc (loc : Nat) (funcs_len : Nat)
    (globals : List GlobalType) (init_expr_funcs : List Var)
    (func_var : Var) : Option (ROut × List Var) :=
  match CheckIndex func_var funcs_len "function" with
  | (Result.error, msgs) => some ((Result.error, msgs), init_expr_funcs)
  | (Result.ok, _) =>
    match globals.getLast? with
    | none => none
    | some cur =>
      some (CheckType loc Ty.funcref cur.type
          "global initializer expression",
        init_expr_funcs ++ [func_var])

/-- `is_power_of_two` (shared-validator.cc:570-572):
`x && ((x & (x - 1)) == 0)` on `uint32_t`. -/
def is_power_of_two (x : Nat) : Bool :=
  decide (x ≠ 0) && ((x &&& (x - 1)) == 0)

/-- `SharedValidator::CheckAlign` (shared-validator.cc:574-587): alignment
must be a power of two and must not exceed the natural alignment; the two
checks early-return, so at most one diagnostic is emitted. -/
def CheckAlign (loc : Nat) (alignment natural_alignment : Nat) : ROut :=
  if !is_power_of_two alignment then
    printError loc "alignment must be a power of 2"
  else if alignment > natural_alignment then
    printError loc "alignment must not be larger than natural alignment"
  else rok

/-- `SharedValidator::CheckAtomicAlign` (shared-validator.cc:589-602):
alignment must be a power of two and equal to the natural alignment. -/
def CheckAtomicAlign (loc : Nat) (alignment natural_alignment : Nat) :
    ROut :=
  if !is_power_of_two alignment then
    printError loc "alignment must be a power of 2"
  else if alignment ≠ natural_alignment then
    printError loc "alignment must be equal to natural alignment"
  else rok

/-- `SharedValidator::CheckMemoryIndex` (shared-validator.cc:431-433). -/
def CheckMemoryIndex (memories : List MemoryType) (memory_var : Var) :
    ROut :=
  CheckIndex memory_var memories.length "memory"

/-- `SharedValidator::CheckSharedMemoryIndex` (shared-validator.cc:447-455):
index check (`CHECK_RESULT`, early return), then the memory must be
shared.  The `none` arm of the inner lookup is unreachable (the index
check has already succeeded) and returns `rok`. -/
def CheckSharedMemoryIndex (memories : List MemoryType) (memory_var : Var)
    (opcodeName : String) : ROut :=
  match CheckIndex memory_var memories.length "memory" with
  | (Result.error, msgs) => (Result.error, msgs)
  | (Result.ok, _) =>
    match memories[memory_var.index]? with
    | none => rok
    | some memory =>
      if !memory.limits.is_shared then
        printError memory_var.loc
          (opcodeName ++ " requires memory to be shared.")
      else rok

/-- `SharedValidator::OnLoad` (shared-validator.cc:863-872): memory index
check, `CheckAlign` against the opcode's natural memory size (`memSize`
abstracts `opcode.GetMemorySize()`), then the TypeChecker transition
(abstracted as `tc`). -/
def OnLoad (loc : Nat) (memories : List MemoryType)
    (memSize alignment : Nat) (tc : Result) : ROut :=
  rseq (rseq (CheckMemoryIndex memories (Var.mk 0 loc))
    (CheckAlign loc alignment memSize)) (tc, [])

/-- `SharedValidator::OnStore` (shared-validator.cc:1049-1058): same checks
as `OnLoad`, with the store TypeChecker transition. -/
def OnStore (loc : Nat) (memories : List MemoryType)
    (memSize alignment : Nat) (tc : Result) : ROut :=
  rseq (rseq (CheckMemoryIndex memories (Var.mk 0 loc))
    (CheckAlign loc alignment memSize)) (tc, [])

/-- `SharedValidator::OnAtomicLoad` (shared-validator.cc:604-613): shared
memory index check, `CheckAtomicAlign`, TypeChecker transition. -/
def OnAtomicLoad (loc : Nat) (memories : List MemoryType)
    (opcodeName : String) (memSize alignment : Nat) (tc : Result) : ROut :=
  rseq (rseq (CheckSharedMemoryIndex memories (Var.mk 0 loc) opcodeName)
    (CheckAtomicAlign loc alignment memSize)) (tc, [])

/-- `SharedValidator::OnAtomicStore` (shared-validator.cc:648-657). -/
def OnAtomicStore (loc : Nat) (memories : List MemoryType)
    (opcodeName : String) (memSize alignment : Nat) (tc : Result) : ROut :=
  rseq (rseq (CheckSharedMemoryIndex memories (Var.mk 0 loc) opcodeName)
    (CheckAtomicAlign loc alignment memSize)) (tc, [])

/-- `SharedValidator::GetLocalCount` (shared-validator.cc:566-568): the
`end` of the last local declaration, 0 when there are none. -/
def GetLocalCount (locals : List LocalDecl) : Nat :=
  match locals.getLast? with
  | none => 0
  | some d => d.end_

/-- `SharedValidator::OnLocalDecl` (shared-validator.cc:554-564): rejects
(leaving the locals table unchanged) when `count` exceeds
`max_locals - GetLocalCount()` where `max_locals` is
`std::numeric_limits<Index>::max() = 2^32 - 1`; otherwise appends
`LocalDecl{type, GetLocalCount() + count}`.  The diagnostic text names a
`0x10000000` (2^28) ceiling, but the guard is against `2^32 - 1`. -/
def OnLocalDecl (loc : Nat) (locals : List LocalDecl) (count : Nat)
    (type : Ty) : ROut × List LocalDecl :=
  if count > 4294967295 - GetLocalCount locals then
    ((Result.error, [(loc, "local count must be < 0x10000000")]), locals)
  else
    ((Result.ok, []),
     locals ++ [LocalDecl.mk type (GetLocalCount locals + count)])

/-- The parameter-installing loop of `BeginFunctionBody`
(shared-validator.cc:535-538): pushes one `LocalDecl` per parameter with
`end = GetLocalCount() + 1`. -/
def installParams (locals : List LocalDecl) : List Ty → List LocalDecl
  | [] => locals
  | t :: ts =>
    installParams (locals ++ [LocalDecl.mk t (GetLocalCount locals + 1)]) ts

/-- `SharedValidator::BeginFunctionBody` (shared-validator.cc:530-544):
clears the locals table; when `func_index` is in range, installs the
function's parameters as locals and passes the function's results to
`TypeChecker::BeginFunction`, otherwise installs nothing and passes the
empty result vector.  No diagnostic is emitted in either case (the source
contains no `PrintError` call).  Returns the new locals table and the
result vector passed to the TypeChecker. -/
def BeginFunctionBody (funcs : List FuncType) (func_index : Nat) :
    List LocalDecl × List Ty :=
  if h : func_index < funcs.length then
    (installParams [] funcs[func_index].params, funcs[func_index].results)
  else ([], [])

/-- The `Result` returned by `BeginFunctionBody`: that of
`TypeChecker::BeginFunction` (abstracted as `tcBeginFunction`) applied to
the chosen result vector. -/
def BeginFunctionBodyResult (funcs : List FuncType) (func_index : Nat)
    (tcBeginFunction : List Ty → Result) : Result :=
  tcBeginFunction (BeginFunctionBody funcs func_index).2

/-- A sequence of `on_local_decl` events applied to the locals table. -/
def runLocalDecls (locals : List LocalDecl) :
    List (Nat × Ty) → List LocalDecl
  | [] => locals
  | (count, t) :: rest => runLocalDecls (OnLocalDecl 0 locals count t).2 rest

/-- The lower bound of the local-index range covered by entry `i`: the
`end` of the previous entry, 0 for the first entry. -/
def prevEnd (L : List LocalDecl) (i : Nat) : Nat :=
  if i = 0 then 0 else (L.map LocalDecl.end_).getD (i - 1) 0

/-- Entry `i` of the locals table covers local index `n`. -/
def coversLocal (L : List LocalDecl) (i n : Nat) : Prop :=
  i < L.length ∧ prevEnd L i ≤ n ∧ n < (L.map LocalDecl.end_).getD i 0

theorem Result.or_eq_ok {a b : Result} :
    Result.or a b = Result.ok ↔ a = Result.ok ∧ b = Result.ok := by
  cases a <;> cases b <;> simp [Result.or]

theorem rseq_fst_ok {a b : ROut} :
    (rseq a b).1 = Result.ok ↔ a.1 = Result.ok ∧ b.1 = Result.ok := by
  simp [rseq, Result.or_eq_ok]

theorem ite_printError_len (c : Prop) [Decidable c] (l : Nat) (m : String) :
    (if c then printError l m else rok).2.length = if c then 1 else 0 := by
  split_ifs <;> simp [printError, rok]

theorem printError_len (l : Nat) (m : String) :
    (printError l m).2.length = 1 := rfl

theorem rok_len : (rok : ROut).2.length = 0 := rfl

theorem CheckLimits_ok_iff (loc : Nat) (limits : Limits) (amax : Nat)
    (desc : String) :
    (CheckLimits loc limits amax desc).1 = Result.ok ↔
      limits.initial ≤ amax ∧
        (limits.has_max = true → limits.max ≤ amax ∧
          limits.initial ≤ limits.max) := by
  simp only [CheckLimits, rseq_fst_ok]
  split_ifs <;> simp_all [rok, printError, rseq, Result.or]

/-- Claim C4: `on_table(elem_type, limits)` returns Ok iff it is the first
table or `reference_types` is enabled, the limits respect `2^32 - 1`,
the table is not shared, the element type is a reference type, and the
element type is Funcref whenever `reference_types` is disabled; the table
is appended to the tables table regardless of the outcome. -/
theorem OnTable_ok_iff (loc : Nat) (rt : Bool) (tables : List TableType)
    (elem : Ty) (limits : Limits) :
    ((OnTable loc rt tables elem limits).1.1 = Result.ok ↔
      (tables = [] ∨ rt = true) ∧
        limits.initial ≤ 4294967295 ∧
        (limits.has_max = true → limits.max ≤ 4294967295 ∧
          limits.initial ≤ limits.max) ∧
        limits.is_shared = false ∧
        (rt = false → elem = Ty.funcref) ∧
        IsRefType elem = true) ∧
    (OnTable loc rt tables elem limits).2 =
      tables ++ [TableType.mk elem limits] := by
  refine ⟨?_, rfl⟩
  obtain ⟨ini, mx, hm, sh⟩ := limits
  simp only [OnTable, rseq_fst_ok, CheckLimits_ok_iff]
  cases rt <;> cases hm <;> cases sh <;>
    split_ifs <;>
    simp_all [rok, printError, List.length_pos]

/-- Claim C3 (amended): `on_memory(limits)` returns Ok iff no memory was
previously declared, `initial <= 65536`, `max` (when present) is `<= 65536`
and `>= initial`, and, when shared, threads is enabled and `max` is
present; the memory is appended regardless.  Each failing check emits its
own diagnostic, except that the two shared-memory checks form an
if/else-if chain: with threads disabled only the may-not-be-shared
diagnostic appears, even when `max` is also missing. -/
theorem OnMemory_ok_iff (loc : Nat) (th : Bool) (memories : List MemoryType)
    (limits : Limits) :
    ((OnMemory loc th memories limits).1.1 = Result.ok ↔
      memories = [] ∧
        limits.initial ≤ 65536 ∧
        (limits.has_max = true → limits.max ≤ 65536 ∧
          limits.initial ≤ limits.max) ∧
        (limits.is_shared = true → th = true ∧ limits.has_max = true)) ∧
    (OnMemory loc th memories limits).2 =
      memories ++ [MemoryType.mk limits] ∧
    (OnMemory loc th memories limits).1.2.length =
      ((if 0 < memories.length then 1 else 0) +
        (if limits.initial ≤ 65536 then 0 else 1) +
        (if limits.has_max = true ∧ 65536 < limits.max then 1 else 0) +
        (if limits.has_max = true ∧ limits.max < limits.initial then 1
          else 0) +
        (if limits.is_shared = true ∧
            (th = false ∨ limits.has_max = false) then 1 else 0)) := by
  refine ⟨?_, rfl, ?_⟩
  · obtain ⟨ini, mx, hm, sh⟩ := limits
    simp only [OnMemory, rseq_fst_ok, CheckLimits_ok_iff]
    cases th <;> cases hm <;> cases sh <;>
      split_ifs <;>
      simp_all [rok, printError, List.length_pos]
  · obtain ⟨ini, mx, hm, sh⟩ := limits
    cases th <;> cases hm <;> cases sh <;>
      simp [OnMemory, rseq, CheckLimits, ite_printError_len, printError_len,
        rok_len] <;>
      split_ifs <;> omega

/-- Claim C3, counterexample to the claim as stated: with
`limits = { initial := 1, max := 0, has_max := false, is_shared := true }`
and threads disabled, two of the claim's conditions are violated (threads
must be enabled, and `max` must be present for a shared memory), yet the
event emits a single diagnostic: the missing-max diagnostic is suppressed
by the else-if chain. -/
theorem OnMemory_shared_masks_missing_max :
    (OnMemory 0 false [] (Limits.mk 1 0 false true)).1.2 =
        [(0, "memories may not be shared")] ∧
      (Limits.mk 1 0 false true).is_shared = true ∧
      (Limits.mk 1 0 false true).has_max = false ∧
      ¬((0, "shared memories must have max sizes") ∈
        (OnMemory 0 false [] (Limits.mk 1 0 false true)).1.2) := by
  refine ⟨rfl, rfl, rfl, ?_⟩
  decide

/-- Claim C1 (refuting evaluation): `on_start(func_var)` performs no index
check at all.  On a module with zero functions, `on_start` with index 0
reads `funcs_[0]` out of bounds (undefined behavior, modelled as `none`)
instead of returning Error with an index-out-of-range diagnostic. -/
theorem OnStart_oob_is_undefined :
    OnStart 0 ([] : List FuncType) 0 (Var.mk 0 0) = none := rfl

/-- Claim C2: `end_module()` returns Ok iff every function Var recorded in
`init_expr_funcs_` has its index contained in `declared_funcs_`; when some
recorded Var is missing, it returns Error with exactly one diagnostic,
the not-declared message at a missing Var's location. -/
theorem EndModule_ok_iff (declared : List Nat) (l : List Var) :
    ((EndModule declared l).1 = Result.ok ↔ ∀ v ∈ l, v.index ∈ declared) ∧
    ((∃ v ∈ l, v.index ∉ declared) →
      ∃ w ∈ l, w.index ∉ declared ∧
        EndModule declared l =
          (Result.error,
            [(w.loc, "function is not declared in any elem sections")])) := by
  induction l with
  | nil => simp [EndModule]
  | cons v rest ih =>
    by_cases hv : v.index ∈ declared
    · have hstep : EndModule declared (v :: rest) = EndModule declared rest := by
        simp [EndModule, CheckDeclaredFunc, hv, rok]
      refine ⟨?_, ?_⟩
      · rw [hstep, ih.1]
        simp [hv]
      · rintro ⟨u, hu, hcu⟩
        rcases List.mem_cons.mp hu with rfl | humem
        · exact absurd hv hcu
        · obtain ⟨w, hw, hcw, hew⟩ := ih.2 ⟨u, humem, hcu⟩
          exact ⟨w, List.mem_cons_of_mem v hw, hcw, hstep ▸ hew⟩
    · have hstep : EndModule declared (v :: rest) =
          (Result.error,
            [(v.loc, "function is not declared in any elem sections")]) := by
        simp [EndModule, CheckDeclaredFunc, hv, printError]
      refine ⟨?_, fun _ => ⟨v, List.mem_cons_self v rest, hv, hstep⟩⟩
      rw [hstep]
      constructor
      · intro hcontra
        simp at hcontra
      · intro hall
        exact absurd (hall v (List.mem_cons_self v rest)) hv

/-- Claim C2, witness: a `ref.func 5` recorded in a global initializer at
location 9, with only function 3 declared in elem segments, makes
`end_module` fail with the not-declared diagnostic at location 9. -/
theorem EndModule_ok_iff_witness :
    EndModule [3] [Var.mk 5 9] =
      (Result.error,
        [(9, "function is not declared in any elem sections")]) := by
  obtain ⟨w, hw, hcw, hew⟩ :=
    (EndModule_ok_iff [3] [Var.mk 5 9]).2 ⟨Var.mk 5 9, by simp, by decide⟩
  have hw' : w = Var.mk 5 9 := by simpa using hw
  subst hw'
  exact hew

/-- Claim C9: when `CheckGlobalIndex` fails (index `>= |globals|`) the
output global type is the placeholder `GlobalType{Any, true}`; hence
`on_global_set` with an out-of-range index returns Error with only the
index diagnostic (the placeholder's `mutable = true` suppresses the
immutable-global diagnostic) and passes type `Any` to the TypeChecker
transition. -/
theorem CheckGlobalIndex_placeholder (loc : Nat) (globals : List GlobalType)
    (v : Var) (tc : Ty → Result) (h : globals.length ≤ v.index) :
    (CheckGlobalIndex globals v).2 = GlobalType.mk Ty.any true ∧
    (OnGlobalSet loc globals v tc).1.1 = Result.error ∧
    (OnGlobalSet loc globals v tc).1.2 =
      [(v.loc, "global variable out of range")] ∧
    (OnGlobalSet loc globals v tc).2 = Ty.any := by
  have hge : v.index ≥ globals.length := h
  simp [CheckGlobalIndex, OnGlobalSet, CheckIndex, hge, rseq, rok,
    printError, Result.or]

/-- Claim C9, witness: `global.set 0` on a module with no globals. -/
theorem CheckGlobalIndex_placeholder_witness :
    (CheckGlobalIndex ([] : List GlobalType) (Var.mk 0 7)).2 =
        GlobalType.mk Ty.any true ∧
      (OnGlobalSet 3 ([] : List GlobalType) (Var.mk 0 7)
          (fun _ => Result.ok)).1.1 = Result.error ∧
      (OnGlobalSet 3 ([] : List GlobalType) (Var.mk 0 7)
          (fun _ => Result.ok)).1.2 =
        [(7, "global variable out of range")] ∧
      (OnGlobalSet 3 ([] : List GlobalType) (Var.mk 0 7)
          (fun _ => Result.ok)).2 = Ty.any :=
  CheckGlobalIndex_placeholder 3 [] (Var.mk 0 7) (fun _ => Result.ok)
    (by decide)

theorem OnGlobalInitExpr_GlobalGet_oob (loc ni : Nat)
    (globals : List GlobalType) (v : Var)
    (hge : globals.length ≤ v.index) :
    OnGlobalInitExpr_GlobalGet loc ni globals v =
      some (Result.error, [(v.loc, "global variable out of range")]) := by
  have hge' : v.index ≥ globals.length := hge
  simp [OnGlobalInitExpr_GlobalGet, CheckGlobalIndex, CheckIndex, hge',
    printError]

theorem OnGlobalInitExpr_GlobalGet_in_range (loc ni : Nat)
    (globals : List GlobalType) (v : Var) (h : globals ≠ [])
    (hlt : v.index < globals.length) :
    OnGlobalInitExpr_GlobalGet loc ni globals v =
      some (rseq (rseq
        (if v.index ≥ ni then
          printError v.loc
            "initializer expression can only reference an imported global"
        else rok)
        (if (globals.getD v.index (GlobalType.mk Ty.any true)).mutable_ then
          printError loc
            "initializer expression cannot reference a mutable global"
        else rok))
        (CheckType loc
          (globals.getD v.index (GlobalType.mk Ty.any true)).type
          (globals.getLast h).type "global initializer expression")) := by
  have hnge : ¬(v.index ≥ globals.length) := by omega
  have hlast : globals.getLast? = some (globals.getLast h) :=
    List.getLast?_eq_getLast globals h
  simp only [OnGlobalInitExpr_GlobalGet, CheckGlobalIndex, CheckIndex,
    hnge, if_false, hlast, rok]

/-- Claim C5: `on_global_init_expr_global_get(g)` returns Ok iff `g` is a
valid global index, refers to an imported global, that global is
immutable, and its type is compatible with the declared type of the global
being initialized (`globals_.back()`); with an out-of-range index the
event returns Error with only the index diagnostic. -/
theorem OnGlobalInitExpr_GlobalGet_spec (loc ni : Nat)
    (globals : List GlobalType) (v : Var) (h : globals ≠ []) :
    (globals.length ≤ v.index →
      OnGlobalInitExpr_GlobalGet loc ni globals v =
        some (Result.error, [(v.loc, "global variable out of range")])) ∧
    (OnGlobalInitExpr_GlobalGet loc ni globals v).isSome = true ∧
    (∀ r, OnGlobalInitExpr_GlobalGet loc ni globals v = some r →
      (r.1 = Result.ok ↔
        v.index < globals.length ∧ v.index < ni ∧
        (globals.getD v.index (GlobalType.mk Ty.any true)).mutable_ =
          false ∧
        CheckTypeB (globals.getD v.index (GlobalType.mk Ty.any true)).type
          (globals.getLast h).type = true)) := by
  by_cases hidx : globals.length ≤ v.index
  · rw [OnGlobalInitExpr_GlobalGet_oob loc ni globals v hidx]
    refine ⟨fun _ => rfl, rfl, ?_⟩
    intro r hr
    cases Option.some.inj hr
    simp
    omega
  · have hlt : v.index < globals.length := by omega
    rw [OnGlobalInitExpr_GlobalGet_in_range loc ni globals v h hlt]
    refine ⟨fun hc => absurd hc hidx, rfl, ?_⟩
    intro r hr
    cases Option.some.inj hr
    simp only [rseq_fst_ok, CheckType]
    constructor
    · intro hok
      obtain ⟨⟨h1, h2⟩, h3⟩ := hok
      refine ⟨hlt, ?_, ?_, ?_⟩
      · by_contra hni
        rw [if_pos (Nat.le_of_not_lt hni)] at h1
        exact absurd h1 (by simp [printError])
      · by_cases hm : (globals.getD v.index
            (GlobalType.mk Ty.any true)).mutable_ = true
        · rw [if_pos hm] at h2
          exact absurd h2 (by simp [printError])
        · simpa using hm
      · by_contra hct
        have hct' : CheckTypeB (globals.getD v.index
            (GlobalType.mk Ty.any true)).type
            (globals.getLast h).type = false := by
          simpa using hct
        rw [hct'] at h3
        exact absurd h3 (by simp [printError])
    · rintro ⟨-, h2, h3, h4⟩
      have hni : ¬(v.index ≥ ni) := by omega
      refine ⟨⟨?_, ?_⟩, ?_⟩
      · simp [hni, rok]
      · rw [h3]
        simp [rok]
      · rw [h4]
        simp [rok]

/-- Claim C5, witness: an in-range `global.get 0` in the initializer of the
second global, where global 0 is imported (`ni = 1`), immutable and of
matching type, validates; and the iff also rejects the same index when
`ni = 0` (nothing imported). -/
theorem OnGlobalInitExpr_GlobalGet_spec_witness :
    ∃ r, OnGlobalInitExpr_GlobalGet 4 1
        [GlobalType.mk Ty.i32 false, GlobalType.mk Ty.i32 true]
        (Var.mk 0 6) = some r ∧ r.1 = Result.ok := by
  have hs := OnGlobalInitExpr_GlobalGet_spec 4 1
    [GlobalType.mk Ty.i32 false, GlobalType.mk Ty.i32 true]
    (Var.mk 0 6) (by decide)
  rcases ho : OnGlobalInitExpr_GlobalGet 4 1
      [GlobalType.mk Ty.i32 false, GlobalType.mk Ty.i32 true]
      (Var.mk 0 6) with _ | r
  · have hsome := hs.2.1
    rw [ho] at hsome
    simp at hsome
  · exact ⟨r, rfl, (hs.2.2 r ho).mpr (by decide)⟩

theorem and_two_mul_odd (a b : Nat) :
    (2 * a) &&& (2 * b + 1) = 2 * (a &&& b) := by
  apply Nat.eq_of_testBit_eq
  intro i
  cases i with
  | zero =>
    have ha : 2 * a % 2 = 0 := by omega
    have hb : (2 * b + 1) % 2 = 1 := by omega
    have hc : 2 * (a &&& b) % 2 = 0 := by omega
    simp [Nat.testBit_and, Nat.testBit_zero, ha, hb, hc]
  | succ i =>
    have h1 : 2 * a / 2 = a := by omega
    have h2 : (2 * b + 1) / 2 = b := by omega
    have h3 : 2 * (a &&& b) / 2 = a &&& b := by omega
    simp only [Nat.testBit_and]
    simp only [Nat.testBit_succ, h1, h2, h3]
    simp only [Nat.testBit_and]

theorem and_odd_two_mul (a b : Nat) :
    (2 * a + 1) &&& (2 * b) = 2 * (a &&& b) := by
  apply Nat.eq_of_testBit_eq
  intro i
  cases i with
  | zero =>
    have ha : (2 * a + 1) % 2 = 1 := by omega
    have hb : 2 * b % 2 = 0 := by omega
    have hc : 2 * (a &&& b) % 2 = 0 := by omega
    simp [Nat.testBit_and, Nat.testBit_zero, ha, hb, hc]
  | succ i =>
    have h1 : (2 * a + 1) / 2 = a := by omega
    have h2 : 2 * b / 2 = b := by omega
    have h3 : 2 * (a &&& b) / 2 = a &&& b := by omega
    simp only [Nat.testBit_and]
    simp only [Nat.testBit_succ, h1, h2, h3]
    simp only [Nat.testBit_and]

theorem pow2_of_and_pred_eq_zero :
    ∀ x : Nat, x ≠ 0 → x &&& (x - 1) = 0 → ∃ k, x = 2 ^ k := by
  intro x
  induction x using Nat.strong_induction_on with
  | _ x ih =>
    intro hx h
    rcases Nat.even_or_odd x with he | ho
    · obtain ⟨m, hm⟩ := he
      have hm2 : x = 2 * m := by omega
      have hm0 : m ≠ 0 := by omega
      have hx1 : x - 1 = 2 * (m - 1) + 1 := by omega
      have h' : (2 * m) &&& (2 * (m - 1) + 1) = 0 := by
        rw [← hm2, ← hx1]
        exact h
      rw [and_two_mul_odd] at h'
      have h2 : m &&& (m - 1) = 0 := by omega
      obtain ⟨k, hk⟩ := ih m (by omega) hm0 h2
      refine ⟨k + 1, ?_⟩
      rw [hm2, hk, pow_succ]
      ring
    · obtain ⟨j, hj⟩ := ho
      rcases Nat.eq_zero_or_pos j with hj0 | hjpos
      · refine ⟨0, ?_⟩
        rw [pow_zero]
        omega
      · have hx1 : x - 1 = 2 * j := by omega
        have h' : (2 * j + 1) &&& (2 * j) = 0 := by
          rw [← hj, ← hx1]
          exact h
        rw [and_odd_two_mul, Nat.and_self] at h'
        exact absurd h' (by omega)

theorem two_pow_and_pred_eq_zero (k : Nat) :
    (2 ^ k) &&& (2 ^ k - 1) = 0 := by
  rw [Nat.and_pow_two_sub_one_eq_mod]
  exact Nat.mod_self _

theorem is_power_of_two_iff (x : Nat) :
    is_power_of_two x = true ↔ ∃ k, x = 2 ^ k := by
  constructor
  · intro hx
    simp only [is_power_of_two, Bool.and_eq_true, decide_eq_true_eq,
      beq_iff_eq] at hx
    exact pow2_of_and_pred_eq_zero x hx.1 hx.2
  · rintro ⟨k, rfl⟩
    have h1 : (2 : Nat) ^ k ≠ 0 := (pow_pos (by norm_num) k).ne'
    simp [is_power_of_two, two_pow_and_pred_eq_zero, h1]

theorem CheckAlign_ok_iff (loc a n : Nat) :
    (CheckAlign loc a n).1 = Result.ok ↔ (∃ k, a = 2 ^ k) ∧ a ≤ n := by
  rw [← is_power_of_two_iff]
  unfold CheckAlign
  split_ifs <;> simp_all [printError, rok]

theorem CheckAtomicAlign_ok_iff (loc a n : Nat) :
    (CheckAtomicAlign loc a n).1 = Result.ok ↔
      (∃ k, a = 2 ^ k) ∧ a = n := by
  rw [← is_power_of_two_iff]
  unfold CheckAtomicAlign
  split_ifs <;> simp_all [printError, rok]

/-- Claim C6: `CheckAlign(alignment, natural)` returns Ok iff alignment is
a power of two and `alignment <= natural`; `CheckAtomicAlign` returns Ok
iff alignment is a power of two and `alignment == natural`; consequently
every load/store/atomic event that returns Ok satisfies the corresponding
alignment condition for its opcode's natural memory size. -/
theorem alignment_spec :
    (∀ loc a n, (CheckAlign loc a n).1 = Result.ok ↔
      (∃ k, a = 2 ^ k) ∧ a ≤ n) ∧
    (∀ loc a n, (CheckAtomicAlign loc a n).1 = Result.ok ↔
      (∃ k, a = 2 ^ k) ∧ a = n) ∧
    (∀ loc memories msz a tc,
      (OnLoad loc memories msz a tc).1 = Result.ok →
        (∃ k, a = 2 ^ k) ∧ a ≤ msz) ∧
    (∀ loc memories msz a tc,
      (OnStore loc memories msz a tc).1 = Result.ok →
        (∃ k, a = 2 ^ k) ∧ a ≤ msz) ∧
    (∀ loc memories op msz a tc,
      (OnAtomicLoad loc memories op msz a tc).1 = Result.ok →
        (∃ k, a = 2 ^ k) ∧ a = msz) ∧
    (∀ loc memories op msz a tc,
      (OnAtomicStore loc memories op msz a tc).1 = Result.ok →
        (∃ k, a = 2 ^ k) ∧ a = msz) := by
  refine ⟨CheckAlign_ok_iff, CheckAtomicAlign_ok_iff, ?_, ?_, ?_, ?_⟩
  · intro loc memories msz a tc hok
    simp only [OnLoad] at hok
    exact (CheckAlign_ok_iff loc a msz).mp
      (rseq_fst_ok.mp (rseq_fst_ok.mp hok).1).2
  · intro loc memories msz a tc hok
    simp only [OnStore] at hok
    exact (CheckAlign_ok_iff loc a msz).mp
      (rseq_fst_ok.mp (rseq_fst_ok.mp hok).1).2
  · intro loc memories op msz a tc hok
    simp only [OnAtomicLoad] at hok
    exact (CheckAtomicAlign_ok_iff loc a msz).mp
      (rseq_fst_ok.mp (rseq_fst_ok.mp hok).1).2
  · intro loc memories op msz a tc hok
    simp only [OnAtomicStore] at hok
    exact (CheckAtomicAlign_ok_iff loc a msz).mp
      (rseq_fst_ok.mp (rseq_fst_ok.mp hok).1).2

/-- Claim C6, witness: an `i32.load` event with alignment 4 on a one-memory
module validates, and the theorem instantiated there yields the alignment
condition concretely. -/
theorem alignment_spec_witness :
    (∃ k, (4 : Nat) = 2 ^ k) ∧ (4 : Nat) ≤ 4 :=
  alignment_spec.2.2.1 0 [MemoryType.mk (Limits.mk 1 1 false false)] 4 4
    Result.ok (by decide)

theorem GetLocalCount_append (L : List LocalDecl) (d : LocalDecl) :
    GetLocalCount (L ++ [d]) = d.end_ := by
  simp [GetLocalCount, List.getLast?_concat]

theorem GetLocalCount_eq_ends_getD (L : List LocalDecl) :
    GetLocalCount L = (L.map LocalDecl.end_).getD (L.length - 1) 0 := by
  unfold GetLocalCount
  rw [List.getLast?_eq_getElem?, List.getD_eq_getElem?_getD,
    List.getElem?_map]
  cases L[L.length - 1]? <;> simp

theorem installParams_types (L : List LocalDecl) (ts : List Ty) :
    (installParams L ts).map LocalDecl.type = L.map LocalDecl.type ++ ts := by
  induction ts generalizing L with
  | nil => simp [installParams]
  | cons t ts ih => simp [installParams, ih]

theorem installParams_ends (L : List LocalDecl) (ts : List Ty) :
    (installParams L ts).map LocalDecl.end_ =
      L.map LocalDecl.end_ ++
        List.range' (GetLocalCount L + 1) ts.length := by
  induction ts generalizing L with
  | nil => simp [installParams]
  | cons t ts ih =>
    rw [installParams, ih, GetLocalCount_append]
    simp [List.range'_succ]

theorem mem_ends_le_GetLocalCount (L : List LocalDecl)
    (hp : (L.map LocalDecl.end_).Pairwise (· ≤ ·)) :
    ∀ a ∈ L.map LocalDecl.end_, a ≤ GetLocalCount L := by
  intro a ha
  have hlen : (L.map LocalDecl.end_).length = L.length := L.length_map _
  obtain ⟨i, hi, hval⟩ := List.mem_iff_getElem.mp ha
  rw [GetLocalCount_eq_ends_getD, List.getD_eq_getElem?_getD,
    List.getElem?_eq_getElem (by omega), Option.getD_some, ← hval]
  rcases eq_or_lt_of_le (show i ≤ L.length - 1 by omega) with heq | hlt
  · subst heq
    exact Nat.le_refl _
  · exact List.pairwise_iff_getElem.mp hp i (L.length - 1) hi (by omega) hlt

theorem runLocalDecls_pairwise (events : List (Nat × Ty))
    (L : List LocalDecl)
    (hp : (L.map LocalDecl.end_).Pairwise (· ≤ ·)) :
    ((runLocalDecls L events).map LocalDecl.end_).Pairwise (· ≤ ·) := by
  induction events generalizing L with
  | nil => exact hp
  | cons ev rest ih =>
    obtain ⟨count, t⟩ := ev
    rw [runLocalDecls]
    apply ih
    unfold OnLocalDecl
    split_ifs with hc
    · exact hp
    · rw [List.map_append, List.pairwise_append]
      refine ⟨hp, by simp, ?_⟩
      intro a ha b hb
      have hb' : b = GetLocalCount L + count := by simpa using hb
      have ha' : a ≤ GetLocalCount L := mem_ends_le_GetLocalCount L hp a ha
      omega

theorem BeginFunctionBody_ends_pairwise (funcs : List FuncType) (fi : Nat) :
    (((BeginFunctionBody funcs fi).1.map LocalDecl.end_).Pairwise
      (· ≤ ·)) := by
  unfold BeginFunctionBody
  split_ifs with h
  · rw [installParams_ends]
    simp only [List.map_nil, List.nil_append]
    exact (List.pairwise_lt_range' _ _ 1).imp Nat.le_of_lt
  · simp

theorem cover_exists (L : List LocalDecl) (n : Nat)
    (hn : n < GetLocalCount L) : ∃ i, coversLocal L i n := by
  have hL : L ≠ [] := by
    intro hnil
    rw [hnil] at hn
    simp [GetLocalCount] at hn
  have hlpos : 0 < L.length := List.length_pos.mpr hL
  have hPex : ∃ i, i < L.length ∧
      n < (L.map LocalDecl.end_).getD i 0 := by
    refine ⟨L.length - 1, by omega, ?_⟩
    rw [← GetLocalCount_eq_ends_getD]
    exact hn
  refine ⟨Nat.find hPex, (Nat.find_spec hPex).1, ?_,
    (Nat.find_spec hPex).2⟩
  by_cases h0 : Nat.find hPex = 0
  · rw [prevEnd, if_pos h0]
    exact Nat.zero_le n
  · have hi0 : Nat.find hPex < L.length := (Nat.find_spec hPex).1
    have hprev := Nat.find_min hPex
      (show Nat.find hPex - 1 < Nat.find hPex by omega)
    rw [prevEnd, if_neg h0]
    by_contra hlt'
    exact hprev ⟨by omega, by omega⟩

theorem cover_lt_total (L : List LocalDecl)
    (hp : (L.map LocalDecl.end_).Pairwise (· ≤ ·)) (n i : Nat)
    (hc : coversLocal L i n) : n < GetLocalCount L := by
  obtain ⟨hi, _, hlt⟩ := hc
  have hmem : (L.map LocalDecl.end_).getD i 0 ∈ L.map LocalDecl.end_ := by
    rw [List.getD_eq_getElem?_getD,
      List.getElem?_eq_getElem (by simpa using hi), Option.getD_some]
    exact List.getElem_mem _
  have := mem_ends_le_GetLocalCount L hp _ hmem
  omega

theorem cover_unique (L : List LocalDecl)
    (hp : (L.map LocalDecl.end_).Pairwise (· ≤ ·)) (n i j : Nat)
    (hci : coversLocal L i n) (hcj : coversLocal L j n) : i = j := by
  have key : ∀ a b, coversLocal L a n → coversLocal L b n → a < b → False := by
    intro a b hca hcb hab
    obtain ⟨ha, _, halt⟩ := hca
    obtain ⟨hb, hbprev, _⟩ := hcb
    have hb0 : b ≠ 0 := by omega
    rw [prevEnd, if_neg hb0] at hbprev
    have hle : (L.map LocalDecl.end_).getD a 0 ≤
        (L.map LocalDecl.end_).getD (b - 1) 0 := by
      rcases eq_or_lt_of_le (show a ≤ b - 1 by omega) with heq | hlt2
      · rw [heq]
      · rw [List.getD_eq_getElem?_getD, List.getD_eq_getElem?_getD,
          List.getElem?_eq_getElem (by simpa using ha),
          List.getElem?_eq_getElem (by simp; omega)]
        simp only [Option.getD_some]
        exact List.pairwise_iff_getElem.mp hp a (b - 1)
          (by simpa using ha) (by simp; omega) hlt2
    omega
  rcases Nat.lt_or_ge i j with hij | hij
  · exact (key i j hci hcj hij).elim
  · rcases Nat.lt_or_ge j i with hji | hji
    · exact (key j i hcj hci hji).elim
    · omega

/-- Claim C8 (amended): after `begin_function_body` and any sequence of
`on_local_decl` events, the `end` values of the locals table are
non-decreasing (strictly increasing only when every accepted count is
positive; a `count = 0` declaration repeats the previous `end` and covers
an empty range), and the entries' ranges `[prev_end, end)` cover
`[0, total_locals)` disjointly: every local index below `GetLocalCount`
lies in exactly one entry's range. -/
theorem locals_partition (funcs : List FuncType) (fi : Nat)
    (events : List (Nat × Ty)) :
    ((runLocalDecls (BeginFunctionBody funcs fi).1 events).map
        LocalDecl.end_).Pairwise (· ≤ ·) ∧
    (∀ n, n < GetLocalCount
        (runLocalDecls (BeginFunctionBody funcs fi).1 events) ↔
      ∃ i, coversLocal
        (runLocalDecls (BeginFunctionBody funcs fi).1 events) i n) ∧
    (∀ n i j,
      coversLocal (runLocalDecls (BeginFunctionBody funcs fi).1 events) i n →
      coversLocal (runLocalDecls (BeginFunctionBody funcs fi).1 events) j n →
      i = j) := by
  have hp := runLocalDecls_pairwise events (BeginFunctionBody funcs fi).1
    (BeginFunctionBody_ends_pairwise funcs fi)
  refine ⟨hp, fun n => ⟨fun hn => cover_exists _ n hn,
    fun ⟨i, hi⟩ => cover_lt_total _ hp n i hi⟩,
    fun n i j hci hcj => cover_unique _ hp n i j hci hcj⟩

/-- Claim C8, witness: a parameterless function body declaring 3 locals
then 2 more has ends `[3, 5]`; its theorem instance gives the pairwise
bound and the cover of `[0, 5)`. -/
theorem locals_partition_witness :
    ((runLocalDecls (BeginFunctionBody ([] : List FuncType) 0).1
        [(3, Ty.i32), (2, Ty.f32)]).map LocalDecl.end_).Pairwise
      (· ≤ ·) ∧
    ∃ i, coversLocal (runLocalDecls
        (BeginFunctionBody ([] : List FuncType) 0).1
        [(3, Ty.i32), (2, Ty.f32)]) i 4 := by
  have hs := locals_partition ([] : List FuncType) 0 [(3, Ty.i32), (2, Ty.f32)]
  exact ⟨hs.1, (hs.2.1 4).mp (by decide)⟩

/-- Claim C8, counterexample to the claim as stated: two `on_local_decl`
events with `count = 0` both return Ok, yet the resulting `end` values
`[0, 0]` are not strictly increasing. -/
theorem locals_strict_increase_fails :
    (OnLocalDecl 0 [] 0 Ty.i32).1.1 = Result.ok ∧
    (OnLocalDecl 0 (OnLocalDecl 0 [] 0 Ty.i32).2 0 Ty.i32).1.1 =
      Result.ok ∧
    ¬((runLocalDecls (BeginFunctionBody ([] : List FuncType) 0).1
        [(0, Ty.i32), (0, Ty.i32)]).map LocalDecl.end_).Pairwise
      (· < ·) := by
  refine ⟨rfl, rfl, ?_⟩
  decide

/-- Claim C7 (amended): `on_local_decl(count, type)` returns Error (leaving
the locals table unchanged, with the `0x10000000` diagnostic text) exactly
when `previous_end + count` would exceed `2^32 - 1`, i.e. overflow the
32-bit index space — not when it merely reaches `2^28`; otherwise it
appends `LocalDecl{type, previous_end + count}` and returns Ok. -/
theorem OnLocalDecl_spec (loc : Nat) (locals : List LocalDecl)
    (count : Nat) (type : Ty)
    (h : GetLocalCount locals ≤ 4294967295) :
    ((OnLocalDecl loc locals count type).1.1 = Result.error ↔
      4294967296 ≤ GetLocalCount locals + count) ∧
    ((OnLocalDecl loc locals count type).1.1 = Result.error →
      (OnLocalDecl loc locals count type).2 = locals ∧
      (OnLocalDecl loc locals count type).1.2 =
        [(loc, "local count must be < 0x10000000")]) ∧
    (GetLocalCount locals + count < 4294967296 →
      OnLocalDecl loc locals count type =
        ((Result.ok, []),
         locals ++ [LocalDecl.mk type (GetLocalCount locals + count)])) := by
  unfold OnLocalDecl
  split_ifs with hc
  · refine ⟨?_, fun _ => ⟨rfl, rfl⟩, fun hlt => absurd hc (by omega)⟩
    constructor
    · intro _
      omega
    · intro _
      rfl
  · refine ⟨?_, ?_, fun _ => rfl⟩
    · constructor
      · intro hh
        exact absurd hh (by simp)
      · intro hge
        exact absurd hge (by omega)
    · intro hh
      exact absurd hh (by simp)

/-- Claim C7, witness: declaring 5 locals in an empty table succeeds and
appends `LocalDecl{i32, 5}`. -/
theorem OnLocalDecl_spec_witness :
    OnLocalDecl 0 [] 5 Ty.i32 =
      ((Result.ok, []), [LocalDecl.mk Ty.i32 5]) := by
  have hs := (OnLocalDecl_spec 0 [] 5 Ty.i32 (by decide)).2.2 (by decide)
  simpa [GetLocalCount] using hs

/-- Claim C7, counterexample to the claim as stated: with an empty locals
table, `on_local_decl(2^28, i32)` reaches the claimed `2^28` ceiling
(`previous_end + count = 0x10000000`), yet the event returns Ok and
appends the declaration — the guard only rejects counts beyond
`2^32 - 1`. -/
theorem OnLocalDecl_2pow28_accepted :
    OnLocalDecl 0 [] 268435456 Ty.i32 =
      ((Result.ok, []), [LocalDecl.mk Ty.i32 268435456]) ∧
    268435456 ≤ GetLocalCount [] + 268435456 := by
  exact ⟨rfl, by omega⟩

/-- Claim C10: `begin_function_body(func_index)` with an out-of-range index
reports no error: it clears the locals table, installs no parameters, and
passes the empty result vector to `TypeChecker::BeginFunction`, returning
that call's result; with an in-range index it installs one `LocalDecl` per
parameter (the i-th with `end = i + 1`) and passes the function's
results. -/
theorem BeginFunctionBody_spec (funcs : List FuncType) (fi : Nat)
    (tc : List Ty → Result) :
    (funcs.length ≤ fi →
      BeginFunctionBody funcs fi = ([], []) ∧
      BeginFunctionBodyResult funcs fi tc = tc []) ∧
    (∀ h : fi < funcs.length,
      (BeginFunctionBody funcs fi).1.map LocalDecl.type =
        funcs[fi].params ∧
      (BeginFunctionBody funcs fi).1.map LocalDecl.end_ =
        List.range' 1 funcs[fi].params.length ∧
      (BeginFunctionBody funcs fi).2 = funcs[fi].results ∧
      BeginFunctionBodyResult funcs fi tc = tc funcs[fi].results) := by
  constructor
  · intro hge
    have hnot : ¬ fi < funcs.length := by omega
    constructor
    · simp [BeginFunctionBody, hnot]
    · simp [BeginFunctionBodyResult, BeginFunctionBody, hnot]
  · intro h
    have h1 : (BeginFunctionBody funcs fi).1 =
        installParams [] funcs[fi].params := by
      simp [BeginFunctionBody, h]
    have h2 : (BeginFunctionBody funcs fi).2 = funcs[fi].results := by
      simp [BeginFunctionBody, h]
    refine ⟨?_, ?_, h2, ?_⟩
    · rw [h1, installParams_types]
      simp
    · rw [h1, installParams_ends]
      simp [GetLocalCount]
    · rw [BeginFunctionBodyResult, h2]

/-- Claim C10, witness: a function of type `(i32, f32) -> i64` installs
parameter locals with ends 1 and 2 and passes `[i64]` to the TypeChecker;
an out-of-range index on an empty module passes the empty vector. -/
theorem BeginFunctionBody_spec_witness :
    (BeginFunctionBody [FuncType.mk [Ty.i32, Ty.f32] [Ty.i64]] 0).1.map
        LocalDecl.end_ = [1, 2] ∧
    (BeginFunctionBody [FuncType.mk [Ty.i32, Ty.f32] [Ty.i64]] 0).2 =
      [Ty.i64] ∧
    BeginFunctionBody ([] : List FuncType) 0 = ([], []) := by
  have hs := (BeginFunctionBody_spec
    [FuncType.mk [Ty.i32, Ty.f32] [Ty.i64]] 0 (fun _ => Result.ok)).2
    (by decide)
  have ho := (BeginFunctionBody_spec ([] : List FuncType) 0
    (fun _ => Result.ok)).1 (by decide)
  exact ⟨by simpa using hs.2.1, hs.2.2.1, ho.1⟩

end Wabt
